import Mathlib

/-!
Verification of the BackgroundChanger overlay / login-screen subsystem.

The Go source is shallowly embedded: float64 arithmetic is modelled over ℚ
(all operations used by the code - division, min/max clamping,
multiplication, comparison - are exact on the inputs of interest),
Go ints are ℤ, fallible calls return Except, and the imperative pieces
(file system, registry mechanisms) are modelled as explicit state passing.
-/

namespace Overlay

/-! ### Scaled layout calculator (internal/overlay/overlay.go) -/

/-- Baseline reference width, from the constant block of overlay.go. -/
def BaseWidth : ℚ := 1920

/-- Baseline reference height. -/
def BaseHeight : ℚ := 1080

/-- Base font size for 1920x1080. -/
def BaseFontSize : ℚ := 18

/-- Base padding around the text box. -/
def BasePadding : ℚ := 20

/-- Base spacing between lines. -/
def BaseLineSpacing : ℚ := 6

/-- Base radius of the rounded corners. -/
def BaseCornerRadius : ℚ := 10

/-- Base margin from the right edge. -/
def BaseMarginRight : ℚ := 40

/-- Base margin from the left edge. -/
def BaseMarginLeft : ℚ := 40

/-- Base margin from the top edge. -/
def BaseMarginTop : ℚ := 80

/-- Minimum scale factor (for 1024x768 readability). -/
def MinScaleFactor : ℚ := 0.6

/-- Maximum scale factor. -/
def MaxScaleFactor : ℚ := 1.0

/-- Minimum font size for readability. -/
def MinFontSize : ℚ := 12

/-- Embedding of the Go struct `ScaledDimensions` of overlay.go. -/
structure ScaledDimensions where
  fontSize : ℚ
  padding : ℚ
  lineSpacing : ℚ
  cornerRadius : ℚ
  marginRight : ℚ
  marginLeft : ℚ
  marginTop : ℚ
  scaleFactor : ℚ
  deriving Repr, DecidableEq

/-- Embedding of `calculateScaledDimensionsForResolution` from overlay.go,
translated statement by statement from the Go function body. -/
def calculateScaledDimensionsForResolution (width height : ℤ) : ScaledDimensions :=
  let scaleX : ℚ := (width : ℚ) / BaseWidth
  let scaleY : ℚ := (height : ℚ) / BaseHeight
  let scale0 : ℚ := if scaleY < scaleX then scaleY else scaleX
  let scale1 : ℚ := if scale0 < MinScaleFactor then MinScaleFactor else scale0
  let scale : ℚ := if scale1 > MaxScaleFactor then MaxScaleFactor else scale1
  let fontSize0 : ℚ := BaseFontSize * scale
  let fontSize : ℚ := if fontSize0 < MinFontSize then MinFontSize else fontSize0
  { fontSize := fontSize
    padding := BasePadding * scale
    lineSpacing := BaseLineSpacing * scale
    cornerRadius := BaseCornerRadius * scale
    marginRight := BaseMarginRight * scale
    marginLeft := BaseMarginLeft * scale
    marginTop := BaseMarginTop * scale
    scaleFactor := scale }

/-- Reference definition written from the spec's words (section 4.2):
scale is min(width/1920, height/1080) clamped into [0.6, 1.0], every base
metric is multiplied by scale, and the font size is clamped up to 12. -/
def scaledDimensionsSpec (width height : ℤ) : ScaledDimensions :=
  let scale : ℚ :=
    max MinScaleFactor (min MaxScaleFactor (min ((width : ℚ) / 1920) ((height : ℚ) / 1080)))
  { fontSize := max (18 * scale) 12
    padding := 20 * scale
    lineSpacing := 6 * scale
    cornerRadius := 10 * scale
    marginRight := 40 * scale
    marginLeft := 40 * scale
    marginTop := 80 * scale
    scaleFactor := scale }

/-- A guard of the form `if a < b then b else a` is the max of the two values. -/
lemma ite_lt_eq_max {α : Type} [LinearOrder α] (a b : α) :
    (if a < b then b else a) = max a b := by
  rcases lt_or_le a b with h | h
  · rw [if_pos h, max_eq_right h.le]
  · rw [if_neg (not_lt.mpr h), max_eq_left h]

/-- A guard of the form `if a > b then b else a` is the min of the two values. -/
lemma ite_gt_eq_min {α : Type} [LinearOrder α] (a b : α) :
    (if a > b then b else a) = min a b := by
  rcases lt_or_le b a with h | h
  · rw [if_pos h, min_eq_right h.le]
  · rw [if_neg (not_lt.mpr h), min_eq_left h]

/-- A guard of the form `if y < x then y else x` is the min of the two values. -/
lemma ite_lt_eq_min {α : Type} [LinearOrder α] (x y : α) :
    (if y < x then y else x) = min x y := by
  rcases lt_or_le y x with h | h
  · rw [if_pos h, min_eq_right h.le]
  · rw [if_neg (not_lt.mpr h), min_eq_left h]

/-- The sequential clamping done by the Go code (raise to the minimum, then cap
at the maximum) agrees with the spec's clamp into the interval. -/
lemma codeScale_eq_specScale (s : ℚ) :
    min (max s MinScaleFactor) MaxScaleFactor
      = max MinScaleFactor (min MaxScaleFactor s) := by
  have hms : MinScaleFactor ≤ MaxScaleFactor := by
    norm_num [MinScaleFactor, MaxScaleFactor]
  rw [max_min_distrib_left, max_eq_right hms, max_comm MinScaleFactor s,
    min_comm MaxScaleFactor (max s MinScaleFactor)]

/-- The code definition agrees with the spec reference definition; shared
between the layout-calculator claim and the renderer development. -/
lemma calculateScaledDimensions_eq (w h : ℤ) :
    calculateScaledDimensionsForResolution w h = scaledDimensionsSpec w h := by
  simp only [calculateScaledDimensionsForResolution, scaledDimensionsSpec,
    BaseWidth, BaseHeight, BaseFontSize, BasePadding, BaseLineSpacing,
    BaseCornerRadius, BaseMarginRight, BaseMarginLeft, BaseMarginTop, MinFontSize,
    ite_lt_eq_min, ite_lt_eq_max, ite_gt_eq_min, codeScale_eq_specScale]

/-- The clamped scale factor is at least the minimum scale factor. -/
lemma scaleFactor_lower (w h : ℤ) :
    MinScaleFactor ≤ (calculateScaledDimensionsForResolution w h).scaleFactor := by
  rw [calculateScaledDimensions_eq]
  exact le_max_left _ _

/-- Paddings, line spacings and font sizes produced by the calculator are
nonnegative; used by the renderer development. -/
lemma calcDims_metrics_nonneg (w h : ℤ) :
    0 ≤ (calculateScaledDimensionsForResolution w h).padding ∧
    0 ≤ (calculateScaledDimensionsForResolution w h).lineSpacing ∧
    0 ≤ (calculateScaledDimensionsForResolution w h).fontSize := by
  have hs : (0 : ℚ) ≤ (calculateScaledDimensionsForResolution w h).scaleFactor :=
    le_trans (by norm_num [MinScaleFactor]) (scaleFactor_lower w h)
  rw [calculateScaledDimensions_eq] at hs ⊢
  refine ⟨mul_nonneg (by norm_num) hs, mul_nonneg (by norm_num) hs, ?_⟩
  exact le_trans (by norm_num) (le_max_right _ _)

/-- C4: for every (width, height) pair, `calculateScaledDimensionsForResolution`
agrees with the spec's reference definition (clamped min-ratio scale, every base
metric multiplied by the scale, font size clamped up to 12); consequently the
scale factor lies in [0.6, 1.0] and the font size is at least 12, and the
1024x768 example yields scale 0.6 and font size 12. -/
theorem calculateScaledDimensionsForResolution_correct :
    (∀ w h : ℤ,
      calculateScaledDimensionsForResolution w h = scaledDimensionsSpec w h ∧
      MinScaleFactor ≤ (calculateScaledDimensionsForResolution w h).scaleFactor ∧
      (calculateScaledDimensionsForResolution w h).scaleFactor ≤ MaxScaleFactor ∧
      MinFontSize ≤ (calculateScaledDimensionsForResolution w h).fontSize) ∧
    (calculateScaledDimensionsForResolution 1024 768).scaleFactor = 0.6 ∧
    (calculateScaledDimensionsForResolution 1024 768).fontSize = 12 := by
  refine ⟨fun w h => ?_,
    by norm_num [calculateScaledDimensionsForResolution, BaseWidth, BaseHeight,
      BaseFontSize, MinScaleFactor, MaxScaleFactor, MinFontSize],
    by norm_num [calculateScaledDimensionsForResolution, BaseWidth, BaseHeight,
      BaseFontSize, MinScaleFactor, MaxScaleFactor, MinFontSize]⟩
  have hkey := calculateScaledDimensions_eq w h
  refine ⟨hkey, scaleFactor_lower w h, ?_, ?_⟩
  · rw [hkey]
    refine max_le ?_ (min_le_left _ _)
    norm_num [MinScaleFactor, MaxScaleFactor]
  · rw [hkey]
    exact le_max_right _ _

/-! ### Brightness analyzer (AnalyzeRegionBrightness in overlay.go) -/

/-- Embedding of a Go `image.Image` as the analyzer reads it: integer bounds
(`Bounds()`) plus a pixel function returning the 16-bit (0..65535) R, G, B
channels produced by `Color.RGBA()`. -/
structure GoImage where
  minX : ℤ
  minY : ℤ
  maxX : ℤ
  maxY : ℤ
  pix : ℤ → ℤ → ℕ × ℕ × ℕ

/-- Rec. 601 luminance of one sample: each 16-bit channel is narrowed to
8 bits with a right shift by 8 (division by 256) and the weights
0.299 / 0.587 / 0.114 are applied, as in the loop body of
`AnalyzeRegionBrightness`. -/
def luminance601 (p : ℕ × ℕ × ℕ) : ℚ :=
  0.299 * ((p.1 / 256 : ℕ) : ℚ) + 0.587 * ((p.2.1 / 256 : ℕ) : ℚ)
    + 0.114 * ((p.2.2 / 256 : ℕ) : ℚ)

/-- Positions visited by a Go loop `for p := a; p < a+len; p += 4`:
the first ceil(len/4) multiples of the stride 4, offset by `a`
(empty when `len` is not positive). -/
def stridePositions (a len : ℤ) : List ℤ :=
  (List.range ((len.toNat + 3) / 4)).map (fun k : ℕ => a + 4 * (k : ℤ))

lemma stridePositions_eq_nil {a len : ℤ} (h : len ≤ 0) : stridePositions a len = [] := by
  have : len.toNat = 0 := Int.toNat_of_nonpos h
  simp [stridePositions, this]

lemma stridePositions_ne_nil {a len : ℤ} (h : 0 < len) : stridePositions a len ≠ [] := by
  have h1 : 0 < (len.toNat + 3) / 4 := Nat.div_pos (by omega) (by norm_num)
  intro hcon
  have hlen := congrArg List.length hcon
  simp only [stridePositions, List.length_map, List.length_range, List.length_nil] at hlen
  exact h1.ne' hlen

/-- Embedding of `AnalyzeRegionBrightness` from overlay.go: clamp the region
to the image bounds exactly as the Go code does (raise x and y to the minimum
bounds, then shrink width and height so the region ends at the maximum
bounds), reject empty regions, then average the Rec. 601 luminance of every
4th pixel and compare against 128. -/
def analyzeRegionBrightness (img : GoImage) (x y width height : ℤ) : Bool :=
  let x1 : ℤ := if x < img.minX then img.minX else x
  let y1 : ℤ := if y < img.minY then img.minY else y
  let w1 : ℤ := if x1 + width > img.maxX then img.maxX - x1 else width
  let h1 : ℤ := if y1 + height > img.maxY then img.maxY - y1 else height
  if w1 ≤ 0 ∨ h1 ≤ 0 then false
  else
    let samples : List ℚ := (stridePositions y1 h1).flatMap
      (fun py => (stridePositions x1 w1).map (fun px => luminance601 (img.pix px py)))
    let pixelCount := samples.length
    if pixelCount = 0 then false
    else decide (samples.sum / (pixelCount : ℚ) > 128)

/-- Reference definition, from the spec's words: the sample points of a region
are every 4th pixel of the region clamped to the image bounds. -/
def regionSamplePoints (img : GoImage) (x y width height : ℤ) : List (ℤ × ℤ) :=
  let x1 : ℤ := max x img.minX
  let y1 : ℤ := max y img.minY
  let w1 : ℤ := min width (img.maxX - x1)
  let h1 : ℤ := min height (img.maxY - y1)
  (stridePositions y1 h1).flatMap
    (fun py => (stridePositions x1 w1).map (fun px => (px, py)))

/-- Reference definition, from the spec's words: the average Rec. 601
luminance of a list of sample points of an image. -/
def averageLuminance (img : GoImage) (pts : List (ℤ × ℤ)) : ℚ :=
  (pts.map (fun p => luminance601 (img.pix p.1 p.2))).sum / (pts.length : ℚ)

/-- The analyzer body after the clamping prologue, as a helper for proofs:
its arguments are the already-clamped origin and extent. -/
def analyzeClamped (img : GoImage) (x1 y1 w1 h1 : ℤ) : Bool :=
  if w1 ≤ 0 ∨ h1 ≤ 0 then false
  else
    let samples : List ℚ := (stridePositions y1 h1).flatMap
      (fun py => (stridePositions x1 w1).map (fun px => luminance601 (img.pix px py)))
    if samples.length = 0 then false
    else decide (samples.sum / (samples.length : ℚ) > 128)

/-- The sample points of a clamped region, as a helper for proofs. -/
def clampedPoints (x1 y1 w1 h1 : ℤ) : List (ℤ × ℤ) :=
  (stridePositions y1 h1).flatMap
    (fun py => (stridePositions x1 w1).map (fun px => (px, py)))

lemma analyzeRegionBrightness_eq_clamped (img : GoImage) (x y width height : ℤ) :
    analyzeRegionBrightness img x y width height =
      analyzeClamped img (max x img.minX) (max y img.minY)
        (min width (img.maxX - max x img.minX))
        (min height (img.maxY - max y img.minY)) := by
  have hx1 : (if x < img.minX then img.minX else x) = max x img.minX := by
    rw [ite_lt_eq_max, max_comm]
  have hy1 : (if y < img.minY then img.minY else y) = max y img.minY := by
    rw [ite_lt_eq_max, max_comm]
  have hw1 : (if max x img.minX + width > img.maxX
        then img.maxX - max x img.minX else width)
      = min width (img.maxX - max x img.minX) := by
    rcases lt_or_le img.maxX (max x img.minX + width) with h | h
    · rw [if_pos h, min_eq_right (by omega)]
    · rw [if_neg (not_lt.mpr h), min_eq_left (by omega)]
  have hh1 : (if max y img.minY + height > img.maxY
        then img.maxY - max y img.minY else height)
      = min height (img.maxY - max y img.minY) := by
    rcases lt_or_le img.maxY (max y img.minY + height) with h | h
    · rw [if_pos h, min_eq_right (by omega)]
    · rw [if_neg (not_lt.mpr h), min_eq_left (by omega)]
  simp only [analyzeRegionBrightness, analyzeClamped, hx1, hy1, hw1, hh1]

lemma regionSamplePoints_eq_clamped (img : GoImage) (x y width height : ℤ) :
    regionSamplePoints img x y width height =
      clampedPoints (max x img.minX) (max y img.minY)
        (min width (img.maxX - max x img.minX))
        (min height (img.maxY - max y img.minY)) := by
  simp only [regionSamplePoints, clampedPoints]

lemma analyzeClamped_iff (img : GoImage) (x1 y1 w1 h1 : ℤ) :
    analyzeClamped img x1 y1 w1 h1 = true ↔
      (clampedPoints x1 y1 w1 h1 ≠ [] ∧
        averageLuminance img (clampedPoints x1 y1 w1 h1) > 128) := by
  have hS : (stridePositions y1 h1).flatMap
        (fun py => (stridePositions x1 w1).map (fun px => luminance601 (img.pix px py)))
      = (clampedPoints x1 y1 w1 h1).map (fun p => luminance601 (img.pix p.1 p.2)) := by
    rw [clampedPoints, List.map_flatMap]
    congr 1
    funext py
    rw [List.map_map]
    rfl
  rcases le_or_lt w1 0 with hw0 | hwpos
  · have hPnil : clampedPoints x1 y1 w1 h1 = [] := by
      simp [clampedPoints, stridePositions_eq_nil hw0]
    rw [analyzeClamped, if_pos (Or.inl hw0)]
    simp [hPnil]
  rcases le_or_lt h1 0 with hh0 | hhpos
  · have hPnil : clampedPoints x1 y1 w1 h1 = [] := by
      simp [clampedPoints, stridePositions_eq_nil hh0]
    rw [analyzeClamped, if_pos (Or.inr hh0)]
    simp [hPnil]
  · have hPne : clampedPoints x1 y1 w1 h1 ≠ [] := by
      rw [clampedPoints]
      rcases List.exists_mem_of_ne_nil _ (stridePositions_ne_nil hhpos) with ⟨py, hpy⟩
      rcases List.exists_mem_of_ne_nil _ (stridePositions_ne_nil hwpos) with ⟨px, hpx⟩
      intro hempty
      have hmem : (px, py) ∈ ([] : List (ℤ × ℤ)) := by
        rw [← hempty]
        exact List.mem_flatMap.mpr ⟨py, hpy, List.mem_map.mpr ⟨px, hpx, rfl⟩⟩
      simp at hmem
    have hlen : ((clampedPoints x1 y1 w1 h1).map
        (fun p => luminance601 (img.pix p.1 p.2))).length ≠ 0 := by
      simp only [List.length_map, ne_eq, List.length_eq_zero]
      exact hPne
    rw [analyzeClamped, if_neg (by push_neg; exact ⟨hwpos, hhpos⟩)]
    simp only [hS]
    rw [if_neg hlen]
    simp only [averageLuminance, List.length_map, decide_eq_true_eq]
    exact ⟨fun hgt => ⟨hPne, hgt⟩, fun h => h.2⟩

/-- C5: the brightness analyzer returns true exactly when the clamped region
contributed at least one sampled pixel and the average Rec. 601 luminance of
the stride-4 samples exceeds 128; in particular every region with zero
sampled pixels (including invalid or empty regions) yields false, and no
error is possible. -/
theorem analyzeRegionBrightness_correct (img : GoImage) (x y width height : ℤ) :
    analyzeRegionBrightness img x y width height = true ↔
      (regionSamplePoints img x y width height ≠ [] ∧
        averageLuminance img (regionSamplePoints img x y width height) > 128) := by
  rw [analyzeRegionBrightness_eq_clamped, regionSamplePoints_eq_clamped]
  exact analyzeClamped_iff img _ _ _ _

end Overlay

namespace LoginScreen

/-! ### Login-screen applier (internal/loginscreen/loginscreen.go and
cmd/changer/main.go) -/

/-- The three mechanisms tried by `SetLoginScreenImage`, in source order. -/
inductive Mechanism where
  | winRT
  | groupPolicy
  | oobe
  deriving DecidableEq, Repr

/-- Result of one applier call: the mechanisms that were actually invoked,
in order, and the returned Go error (`Except.ok` models a nil error). -/
structure ApplyOutcome where
  invoked : List Mechanism
  result : Except String Unit
  deriving Repr

/-- Embedding of `SetLoginScreenImage` (internal/loginscreen/loginscreen.go).
The outcome of each OS mechanism is an input (`none` models a nil error from
the mechanism, `some e` a failure with message `e`), as are the results of
the two preliminary checks `filepath.Abs` and `os.Stat`. The accumulation of
`anySuccess` and `lastError` mirrors the Go body statement by statement;
note that for methods 2 and 3 the source only records the error when
`lastError == nil`. -/
def setLoginScreenImage (absOk statOk : Bool) (r1 r2 r3 : Option String) : ApplyOutcome :=
  if !absOk then ⟨[], .error "failed to get absolute path"⟩
  else if !statOk then ⟨[], .error "image file does not exist"⟩
  else
    let anySuccess1 := r1.isNone
    let lastError1 : Option String := r1
    let anySuccess2 := anySuccess1 || r2.isNone
    let lastError2 : Option String :=
      match r2 with
      | some e => if lastError1 = none then some e else lastError1
      | none => lastError1
    let anySuccess3 := anySuccess2 || r3.isNone
    let lastError3 : Option String :=
      match r3 with
      | some e => if lastError2 = none then some e else lastError2
      | none => lastError2
    if !anySuccess3 then
      ⟨[.winRT, .groupPolicy, .oobe],
        .error ("all login screen methods failed, last error: " ++ lastError3.getD "")⟩
    else
      ⟨[.winRT, .groupPolicy, .oobe], .ok ()⟩

/-- Embedding of `setLoginScreenBackground` (cmd/changer/main.go): a loop over
the declarative method list [WinRT, Group Policy] that invokes every entry,
sets `lastError` on each failure (unconditionally, unlike
`SetLoginScreenImage`) and `anySuccess` on each success. -/
def setLoginScreenBackground (absOk : Bool) (o1 o2 : Option String) : ApplyOutcome :=
  if !absOk then ⟨[], .error "failed to get absolute path"⟩
  else
    let methods : List (Mechanism × Option String) := [(.winRT, o1), (.groupPolicy, o2)]
    let step := fun (acc : List Mechanism × Bool × Option String)
        (m : Mechanism × Option String) =>
      match m.2 with
      | some e => (acc.1 ++ [m.1], acc.2.1, some e)
      | none => (acc.1 ++ [m.1], true, acc.2.2)
    let r := methods.foldl step ([], false, none)
    if !r.2.1 then
      ⟨r.1, .error ("all login screen methods failed, last error: " ++ (r.2.2).getD "")⟩
    else
      ⟨r.1, .ok ()⟩

/-- C1 counterexample: for an image path whose `os.Stat` check fails,
`SetLoginScreenImage` returns before invoking any mechanism, so the claim
that every apply mechanism is invoked for every image path is false: at this
concrete input the invocation list is empty rather than all three mechanisms. -/
theorem setLoginScreenImage_stat_failure_skips_mechanisms :
    (setLoginScreenImage true false none none none).invoked = [] ∧
    (setLoginScreenImage true false none none none).invoked ≠
      [Mechanism.winRT, Mechanism.groupPolicy, Mechanism.oobe] := by
  constructor
  · rfl
  · decide

/-- C1 (amended): for every image path that passes the preliminary validation
(absolute-path resolution, and for `SetLoginScreenImage` the existence check),
every apply mechanism in the list is invoked regardless of the outcomes of the
earlier ones, and the call returns success exactly when at least one mechanism
succeeded; in particular a failing first mechanism followed by a succeeding
second one yields overall success with a nil error. -/
theorem applier_invokes_all_and_aggregates (r1 r2 r3 o1 o2 : Option String) :
    (setLoginScreenImage true true r1 r2 r3).invoked
        = [Mechanism.winRT, Mechanism.groupPolicy, Mechanism.oobe] ∧
    ((setLoginScreenImage true true r1 r2 r3).result = .ok ()
        ↔ (r1 = none ∨ r2 = none ∨ r3 = none)) ∧
    (setLoginScreenBackground true o1 o2).invoked
        = [Mechanism.winRT, Mechanism.groupPolicy] ∧
    ((setLoginScreenBackground true o1 o2).result = .ok ()
        ↔ (o1 = none ∨ o2 = none)) ∧
    (setLoginScreenImage true true (some "mechanism one failed") none none).result
        = .ok () ∧
    (setLoginScreenBackground true (some "mechanism one failed") none).result
        = .ok () := by
  refine ⟨?_, ?_, ?_, ?_, rfl, rfl⟩
  · cases r1 <;> cases r2 <;> cases r3 <;> rfl
  · cases r1 <;> cases r2 <;> cases r3 <;>
      simp [setLoginScreenImage, Option.isNone]
  · cases o1 <;> cases o2 <;> rfl
  · cases o1 <;> cases o2 <;>
      simp [setLoginScreenBackground]

/-- C6: when every mechanism fails, `SetLoginScreenImage` keeps only the
first observed failure (its guards overwrite `lastError` only while it is
still nil) yet labels it "last error", whereas `setLoginScreenBackground`
does return the genuinely last failure as the spec demands; at the concrete
all-fail input below the former reports mechanism 1, not mechanism 3. -/
theorem setLoginScreenImage_reports_first_failure :
    (setLoginScreenImage true true (some "e1") (some "e2") (some "e3")).result
        = .error ("all login screen methods failed, last error: e1") ∧
    (setLoginScreenImage true true (some "e1") (some "e2") (some "e3")).result
        ≠ .error ("all login screen methods failed, last error: e3") ∧
    (setLoginScreenBackground true (some "e1") (some "e2")).result
        = .error ("all login screen methods failed, last error: e2") := by
  refine ⟨rfl, ?_, rfl⟩
  intro h
  have h2 : ("all login screen methods failed, last error: e1" : String)
      = "all login screen methods failed, last error: e3" := Except.error.inj h
  exact absurd h2 (by decide)

/-! ### Backup lifecycle (internal/loginscreen/loginscreen.go) -/

/-- Embedding of `HasBackup`: the backup file system state is the optional
content of the single well-known backup file; `os.Stat` succeeds exactly when
it is present. -/
def hasBackup (backup : Option String) : Bool :=
  backup.isSome

/-- Embedding of `InvalidateBackup`: when the stat reports the file as absent
the function returns nil without touching anything; otherwise it removes the
file (`removeOk` models whether `os.Remove` succeeds). The value returned on
success is the new backup state. -/
def invalidateBackup (removeOk : Bool) (backup : Option String) :
    Except String (Option String) :=
  match backup with
  | none => .ok none
  | some _ => if removeOk then .ok none else .error "remove failed"

/-- C10: `InvalidateBackup` is idempotent: with no backup present it returns
nil and changes nothing; after any successful call `HasBackup` is false; and
a second call after a successful one is a no-op that succeeds with the same
resulting state, so calling it twice has the same effect and result as
calling it once. -/
theorem invalidateBackup_idempotent :
    (∀ removeOk : Bool, invalidateBackup removeOk none = .ok none) ∧
    (∀ (removeOk : Bool) (b s1 : Option String),
      invalidateBackup removeOk b = .ok s1 →
        hasBackup s1 = false ∧
        ∀ removeOk2 : Bool, invalidateBackup removeOk2 s1 = .ok s1) := by
  constructor
  · intro removeOk
    rfl
  · intro removeOk b s1 h
    have hs1 : s1 = none := by
      cases b with
      | none => simpa [invalidateBackup] using h.symm
      | some v =>
          by_cases hro : removeOk = true
          · rw [invalidateBackup, hro, if_pos rfl] at h
            simpa using h.symm
          · rw [invalidateBackup, eq_false_of_ne_true hro] at h
            simp at h
    subst hs1
    exact ⟨rfl, fun _ => rfl⟩

/-- C10 witness: invalidating an existing backup succeeds, after which
`HasBackup` is false and invalidating again succeeds without change. -/
theorem invalidateBackup_idempotent_witness :
    hasBackup none = false ∧ invalidateBackup false none = .ok none :=
  ⟨(invalidateBackup_idempotent.2 true (some "original") none rfl).1,
   (invalidateBackup_idempotent.2 true (some "original") none rfl).2 false⟩

/-! ### Default background (CreateDefaultBackground) -/

/-- Embedding of a Go RGBA image for `CreateDefaultBackground`: bounds plus a
pixel function returning 8-bit R, G, B, A. -/
structure RGBAImage where
  minX : ℤ
  minY : ℤ
  maxX : ℤ
  maxY : ℤ
  pix : ℤ → ℤ → ℕ × ℕ × ℕ × ℕ

/-- Embedding of `CreateDefaultBackground`: `image.NewRGBA(image.Rect(0, 0,
width, height))` yields a zero-initialized (transparent) image with the given
bounds, and the nested loops set every pixel with both coordinates in
[0, width) x [0, height) to `image.Black`, which is opaque pure black
(RGBA 0, 0, 0, 255). This is the net effect of the loop. -/
def createDefaultBackground (width height : ℤ) : RGBAImage :=
  { minX := 0
    minY := 0
    maxX := width
    maxY := height
    pix := fun x y =>
      if 0 ≤ x ∧ x < width ∧ 0 ≤ y ∧ y < height then (0, 0, 0, 255) else (0, 0, 0, 0) }

/-- C9: for positive width and height, `CreateDefaultBackground` returns an
image with bounds (0,0)-(width,height) whose every in-bounds pixel is opaque
pure black RGBA (0,0,0,255) - not the dark gray 0x1a1a1a announced by the
comment above the fill loop. -/
theorem createDefaultBackground_pure_black (width height x y : ℤ)
    (hx0 : 0 ≤ x) (hxw : x < width) (hy0 : 0 ≤ y) (hyh : y < height) :
    (createDefaultBackground width height).pix x y = (0, 0, 0, 255) ∧
    (createDefaultBackground width height).minX = 0 ∧
    (createDefaultBackground width height).minY = 0 ∧
    (createDefaultBackground width height).maxX = width ∧
    (createDefaultBackground width height).maxY = height := by
  refine ⟨?_, rfl, rfl, rfl, rfl⟩
  rw [createDefaultBackground]
  exact if_pos ⟨hx0, hxw, hy0, hyh⟩

/-- C9 witness: the 1920x1080 default canvas is pure black at the origin. -/
theorem createDefaultBackground_pure_black_witness :
    (createDefaultBackground 1920 1080).pix 0 0 = (0, 0, 0, 255) :=
  (createDefaultBackground_pure_black 1920 1080 0 0 (by decide) (by decide)
    (by decide) (by decide)).1

end LoginScreen

namespace StatusService

/-! ### Update orchestrator (cmd/statusservice/main.go, runStatusUpdate)

The file-system state visible to `runStatusUpdate` is the content of the
backup file (`loginscreen.HasBackup` / `GetBackupImage`), the image found by
the probe chain `GetCurrentLoginScreenImage` (if any), and the content of the
output file. Image contents are an abstract type; the overlay renderer is an
abstract function of the source image (the text lines are fixed within one
run), and file copies and writes are modelled as succeeding. -/

/-- File-system state seen by one orchestrator run. -/
structure OrchState (Img : Type) where
  backup : Option Img
  probe : Option Img
  output : Option Img

/-- Embedding of the source-resolution, backup, render and persist steps of
`runStatusUpdate`: when a backup exists it is the render source; otherwise a
probed image becomes both the render source and the new backup (copied before
any overlay is applied); otherwise the synthesized default canvas is the
source and no backup is written. The returned pair is the state after the
run together with the render source that was used. -/
def runStatusUpdate {Img : Type} (render : Img → Img) (defaultBg : Img)
    (s : OrchState Img) : OrchState Img × Img :=
  match s.backup with
  | some b =>
      ({ backup := some b, probe := s.probe, output := some (render b) }, b)
  | none =>
      match s.probe with
      | some found =>
          ({ backup := some found, probe := s.probe, output := some (render found) }, found)
      | none =>
          ({ backup := none, probe := s.probe, output := some (render defaultBg) }, defaultBg)

/-- C2: whenever the backup file exists, the render source of
`runStatusUpdate` is the pristine backup and the backup is left untouched,
so a second run in succession again renders from the same pristine backup and
the final output is a single overlay over it - overlays are never compounded
on top of a previously overlaid output. -/
theorem runStatusUpdate_renders_from_pristine_backup {Img : Type}
    (render : Img → Img) (defaultBg : Img) (s : OrchState Img) (b : Img)
    (h : s.backup = some b) :
    (runStatusUpdate render defaultBg s).2 = b ∧
    ((runStatusUpdate render defaultBg s).1).backup = some b ∧
    (runStatusUpdate render defaultBg ((runStatusUpdate render defaultBg s).1)).2 = b ∧
    ((runStatusUpdate render defaultBg
        ((runStatusUpdate render defaultBg s).1)).1).output = some (render b) := by
  simp [runStatusUpdate, h]

/-- C2 witness: with backup content 5 and renderer succ, both runs use source
5 and the final output is 6, not 7. -/
theorem runStatusUpdate_renders_from_pristine_backup_witness :
    (runStatusUpdate Nat.succ 0 ⟨some 5, some 9, none⟩).2 = 5 ∧
    ((runStatusUpdate Nat.succ 0 ⟨some 5, some 9, none⟩).1).backup = some 5 ∧
    (runStatusUpdate Nat.succ 0
        ((runStatusUpdate Nat.succ 0 ⟨some 5, some 9, none⟩).1)).2 = 5 ∧
    ((runStatusUpdate Nat.succ 0
        ((runStatusUpdate Nat.succ 0 ⟨some 5, some 9, none⟩).1)).1).output
      = some (Nat.succ 5) :=
  runStatusUpdate_renders_from_pristine_backup Nat.succ 0 ⟨some 5, some 9, none⟩ 5 rfl

/-- C7: on a run without an existing backup, a backup is created exactly when
the probe chain discovered a real image: the new backup state equals the
probe result, a discovered image is backed up pristine (before any overlay)
and is the render source, while the synthesized default canvas is used as
source only when every probe failed and is never saved as a backup. -/
theorem runStatusUpdate_backup_iff_discovered {Img : Type}
    (render : Img → Img) (defaultBg : Img) (s : OrchState Img)
    (h : s.backup = none) :
    ((runStatusUpdate render defaultBg s).1).backup = s.probe ∧
    (s.probe = none → (runStatusUpdate render defaultBg s).2 = defaultBg) ∧
    (∀ found, s.probe = some found →
      (runStatusUpdate render defaultBg s).2 = found ∧
      ((runStatusUpdate render defaultBg s).1).output = some (render found)) := by
  refine ⟨?_, ?_, ?_⟩
  · cases hp : s.probe <;> simp [runStatusUpdate, h, hp]
  · intro hp
    simp [runStatusUpdate, h, hp]
  · intro found hp
    simp [runStatusUpdate, h, hp]

/-- C7 witness: with no backup and probe result 7, the run backs up 7
pristine, renders from 7 and outputs 8; with no probe result the default
canvas 0 is the source. -/
theorem runStatusUpdate_backup_iff_discovered_witness :
    ((runStatusUpdate Nat.succ 0 ⟨none, some 7, none⟩).1).backup = some 7 ∧
    (runStatusUpdate Nat.succ 0 ⟨none, some 7, none⟩).2 = 7 ∧
    ((runStatusUpdate Nat.succ 0 ⟨none, some 7, none⟩).1).output = some 8 ∧
    ((runStatusUpdate Nat.succ 0 ⟨none, none, none⟩).1).backup = none ∧
    (runStatusUpdate Nat.succ 0 ⟨none, none, none⟩).2 = 0 := by
  have h1 := runStatusUpdate_backup_iff_discovered Nat.succ 0
    (⟨none, some 7, none⟩ : OrchState ℕ) rfl
  have h2 := runStatusUpdate_backup_iff_discovered Nat.succ 0
    (⟨none, none, none⟩ : OrchState ℕ) rfl
  exact ⟨h1.1, (h1.2.2 7 rfl).1, (h1.2.2 7 rfl).2, h2.1, h2.2.1 rfl⟩

/-! ### Output retention (spec section 6 / 8; consumer
`findLatestLoginScreenImage` in cmd/installer/main.go)

The statusservice revision that persists timestamped outputs is not part of
the checked-in statusservice sources (the checked-in `runStatusUpdate` still
writes the legacy fixed name); only its consumer `findLatestLoginScreenImage`
is. The persist-and-prune step is therefore modelled from the spec, while
the output-name predicate is translated from the consumer. File names are
modelled as byte lists (Go strings). -/

/-- The legacy fixed output name. -/
def legacyName : List Char := "current_loginscreen.jpg".toList

/-- Translated from `findLatestLoginScreenImage` (cmd/installer/main.go): a
directory entry counts as a persisted login-screen output when its name is
longer than 12 bytes, starts with "loginscreen_" and ends with ".jpg". -/
def isLoginScreenOutput (name : List Char) : Bool :=
  decide (12 < name.length) &&
  decide (name.take 12 = "loginscreen_".toList) &&
  decide (name.drop (name.length - 4) = ".jpg".toList)

/-- Modelled from the spec: the timestamp-qualified output name
`loginscreen_<unix-timestamp>.jpg` written by the later scheduled-task
orchestrator (spec section 6, "Output file naming"). The timestamp digits
are an arbitrary byte list. -/
def outputName (ts : List Char) : List Char :=
  "loginscreen_".toList ++ ts ++ ".jpg".toList

/-- Modelled from the spec: the persist-and-prune step of the later
scheduled-task orchestrator (spec sections 4.7, 6 and 8): the rendered output
is written under the timestamp-qualified name and every previously persisted
output, including the legacy fixed-name file, is deleted from the data
directory. -/
def persistAndPrune (ts : List Char) (dir : List (List Char)) : List (List Char) :=
  outputName ts ::
    dir.filter (fun n => !(isLoginScreenOutput n) && decide (n ≠ legacyName))

lemma length_loginscreen_prefix : ("loginscreen_".toList).length = 12 := by decide

lemma outputName_assoc (ts : List Char) :
    outputName ts = ("loginscreen_".toList ++ ts) ++ ".jpg".toList := by
  rw [outputName, List.append_assoc]

lemma length_outputName (ts : List Char) :
    (outputName ts).length = ("loginscreen_".toList ++ ts).length + 4 := by
  rw [outputName_assoc, List.length_append]
  rfl

/-- Every timestamped output name satisfies the consumer predicate. -/
lemma isLoginScreenOutput_outputName (ts : List Char) :
    isLoginScreenOutput (outputName ts) = true := by
  have hpre : (outputName ts).take 12 = "loginscreen_".toList := by
    rw [outputName, ← length_loginscreen_prefix]
    exact List.take_left _ _
  have hsuf : (outputName ts).drop ((outputName ts).length - 4) = ".jpg".toList := by
    rw [length_outputName, Nat.add_sub_cancel, outputName_assoc]
    exact List.drop_left _ _
  have h12 : 12 < (outputName ts).length := by
    rw [length_outputName, List.length_append, length_loginscreen_prefix]
    omega
  rw [isLoginScreenOutput]
  simp [hpre, hsuf, h12]

/-- C3: after the persist-and-prune step, exactly one file matching
`loginscreen_*.jpg` remains in the data directory (the newly written
timestamped output), and the legacy fixed-name file is gone. -/
theorem persistAndPrune_retention (ts : List Char) (dir : List (List Char)) :
    ((persistAndPrune ts dir).countP (fun n => isLoginScreenOutput n)) = 1 ∧
    legacyName ∉ persistAndPrune ts dir := by
  have hnew := isLoginScreenOutput_outputName ts
  constructor
  · rw [persistAndPrune, List.countP_cons]
    have hfilter : ((dir.filter
        (fun n => !(isLoginScreenOutput n) && decide (n ≠ legacyName))).countP
          (fun n => isLoginScreenOutput n)) = 0 := by
      rw [List.countP_eq_zero]
      intro a ha
      have hprop := (List.mem_filter.mp ha).2
      simp only [Bool.and_eq_true, Bool.not_eq_true', decide_eq_true_eq] at hprop
      simp [hprop.1]
    rw [hfilter, hnew]
    rfl
  · rw [persistAndPrune]
    intro hmem
    rcases List.mem_cons.mp hmem with heq | hmem2
    · have hleg : isLoginScreenOutput legacyName = false := by decide
      rw [heq, hnew] at hleg
      exact absurd hleg (by decide)
    · have hprop := (List.mem_filter.mp hmem2).2
      simp only [Bool.and_eq_true, Bool.not_eq_true', decide_eq_true_eq] at hprop
      exact hprop.2 rfl

end StatusService

namespace Render

/-! ### Dual-panel overlay renderer (RenderDualPanelOverlay in overlay.go)

The gg drawing context is embedded as a canvas over rational coordinates.
The external gg/font collaborators appear as a `GG` structure: the three
compositing operations (how a fill, border or text pixel combines with the
pixel under it), the text-measurement function, and the glyph-coverage
predicate of the font. Drawing primitives touch exactly the points of their
shape: the rounded-rectangle fill covers the rounded rectangle, the 1-pixel
border stroke covers a band of width 1 centered on the rectangle outline
(hence reaching half a pixel outside the box), and a drawn text line covers
its glyph set. The brightness-based color choice of lines 479-499 of
overlay.go picks one of the two constant schemes per panel and is an input
Bool here; it influences only the colors painted inside a panel, never which
points are painted. -/

/-- An RGBA color as gg receives it from SetRGBA (each channel in [0,1]). -/
abbrev Color := ℚ × ℚ × ℚ × ℚ

/-- A drawing surface: color at each rational point. -/
abbrev Canvas := ℚ → ℚ → Color

/-- Embedding of the Go `TextColor` struct. -/
structure TextColorQ where
  text : Color
  background : Color
  border : Color

/-- Embedding of `LightOnDark`: white text, black background at alpha 160,
white border at alpha 80 (channels divided by 255 as SetRGBA receives them). -/
def lightOnDark : TextColorQ :=
  ⟨(1, 1, 1, 1), (0, 0, 0, 160 / 255), (1, 1, 1, 80 / 255)⟩

/-- Embedding of `DarkOnLight`: black text, white background at alpha 180,
black border at alpha 80. -/
def darkOnLight : TextColorQ :=
  ⟨(0, 0, 0, 1), (1, 1, 1, 180 / 255), (0, 0, 0, 80 / 255)⟩

/-- The external drawing library and font: compositing functions for fill,
stroke and text pixels, the text measurement of `MeasureString`, and the
glyph-coverage predicate (does drawing string `s` at pen position `(x, y)`
cover the point `(p, q)`). -/
structure GG where
  fillPaint : Color → Color → Color
  strokePaint : Color → Color → Color
  textPaint : Color → Color → Color
  measure : String → ℚ
  glyph : String → ℚ → ℚ → ℚ → ℚ → Bool

/-- An axis-aligned rectangle given by origin and extent. -/
structure Rect where
  x : ℚ
  y : ℚ
  w : ℚ
  h : ℚ

/-- Membership of a point in the closed rectangle. -/
def inRectB (r : Rect) (p q : ℚ) : Bool :=
  decide (r.x ≤ p) && decide (p ≤ r.x + r.w) &&
  decide (r.y ≤ q) && decide (q ≤ r.y + r.h)

/-- The corner condition of a rounded rectangle: inside each of the four
corner squares the point must lie within the quarter-circle of the given
radius. -/
def cornerOkB (r : Rect) (rad p q : ℚ) : Bool :=
  (!(decide (p < r.x + rad) && decide (q < r.y + rad)) ||
    decide ((p - (r.x + rad)) ^ 2 + (q - (r.y + rad)) ^ 2 ≤ rad ^ 2)) &&
  (!(decide (r.x + r.w - rad < p) && decide (q < r.y + rad)) ||
    decide ((p - (r.x + r.w - rad)) ^ 2 + (q - (r.y + rad)) ^ 2 ≤ rad ^ 2)) &&
  (!(decide (p < r.x + rad) && decide (r.y + r.h - rad < q)) ||
    decide ((p - (r.x + rad)) ^ 2 + (q - (r.y + r.h - rad)) ^ 2 ≤ rad ^ 2)) &&
  (!(decide (r.x + r.w - rad < p) && decide (r.y + r.h - rad < q)) ||
    decide ((p - (r.x + r.w - rad)) ^ 2 + (q - (r.y + r.h - rad)) ^ 2 ≤ rad ^ 2))

/-- The region covered by `DrawRoundedRectangle` + `Fill`. -/
def inRoundedRectB (r : Rect) (rad p q : ℚ) : Bool :=
  inRectB r p q && cornerOkB r rad p q

/-- Strict interior of a rectangle. -/
def strictInsideB (r : Rect) (p q : ℚ) : Bool :=
  decide (r.x < p) && decide (p < r.x + r.w) &&
  decide (r.y < q) && decide (q < r.y + r.h)

/-- The band covered by `DrawRoundedRectangle` + `Stroke` with line width
`lw`: within the rectangle inflated by half the line width but not strictly
inside the rectangle deflated by half the line width. -/
def strokeBandB (r : Rect) (lw p q : ℚ) : Bool :=
  inRectB ⟨r.x - lw / 2, r.y - lw / 2, r.w + lw, r.h + lw⟩ p q &&
  !(strictInsideB ⟨r.x + lw / 2, r.y + lw / 2, r.w - lw, r.h - lw⟩ p q)

/-- Embedding of the text loop of `drawPanel` / `RenderDualPanelOverlay`:
draw each line at the pen position, advancing the baseline by the line
height. -/
def drawLines (g : GG) (col : Color) (lineHeight textX : ℚ) :
    List String → ℚ → Canvas → Canvas
  | [], _, c => c
  | s :: rest, textY, c =>
      drawLines g col lineHeight textX rest (textY + lineHeight)
        (fun p q => if g.glyph s textX textY p q then g.textPaint col (c p q) else c p q)

/-- Embedding of `drawPanel` from overlay.go: fill the rounded background
box, stroke its 1-pixel border, then draw the text lines inset by the
padding, first baseline one font size below the top padding. -/
def drawPanel (g : GG) (dims : Overlay.ScaledDimensions) (colors : TextColorQ)
    (lines : List String) (r : Rect) (c : Canvas) : Canvas :=
  let afterFill : Canvas := fun p q =>
    if inRoundedRectB r dims.cornerRadius p q then g.fillPaint colors.background (c p q)
    else c p q
  let afterBorder : Canvas := fun p q =>
    if strokeBandB r 1 p q then g.strokePaint colors.border (afterFill p q)
    else afterFill p q
  drawLines g colors.text (dims.fontSize + dims.lineSpacing) (r.x + dims.padding)
    lines (r.y + dims.padding + dims.fontSize) afterBorder

/-- Embedding of the widest-line computation of `RenderDualPanelOverlay`. -/
def maxLineWidth (g : GG) (lines : List String) : ℚ :=
  lines.foldl (fun acc s => if g.measure s > acc then g.measure s else acc) 0

/-- Panel box width: widest line plus padding on both sides. -/
def boxWidth (g : GG) (dims : Overlay.ScaledDimensions) (lines : List String) : ℚ :=
  maxLineWidth g lines + dims.padding * 2

/-- Panel box height: line height times line count, plus padding on both
sides, minus one trailing line spacing. -/
def boxHeight (dims : Overlay.ScaledDimensions) (lines : List String) : ℚ :=
  (dims.fontSize + dims.lineSpacing) * (lines.length : ℚ) + dims.padding * 2
    - dims.lineSpacing

/-- Embedding of the dimension setup of `RenderDualPanelOverlay`: scaled
dimensions computed from the display resolution, with the margins corrected
by the image-to-display ratio per axis. -/
def dualPanelDims (displayW displayH : ℤ) (imgW imgH : ℚ) :
    Overlay.ScaledDimensions :=
  let dims0 := Overlay.calculateScaledDimensionsForResolution displayW displayH
  { dims0 with
      marginLeft := dims0.marginLeft * (imgW / (displayW : ℚ))
      marginRight := dims0.marginRight * (imgW / (displayW : ℚ))
      marginTop := dims0.marginTop * (imgH / (displayH : ℚ)) }

/-- The left panel rectangle: anchored at (marginLeft, marginTop). -/
def leftRect (g : GG) (dims : Overlay.ScaledDimensions) (lines : List String) : Rect :=
  ⟨dims.marginLeft, dims.marginTop, boxWidth g dims lines, boxHeight dims lines⟩

/-- The right panel rectangle: anchored at
(imageWidth - boxWidth - marginRight, marginTop). -/
def rightRect (g : GG) (dims : Overlay.ScaledDimensions) (imgW : ℚ)
    (lines : List String) : Rect :=
  ⟨imgW - boxWidth g dims lines - dims.marginRight, dims.marginTop,
    boxWidth g dims lines, boxHeight dims lines⟩

/-- Embedding of `RenderDualPanelOverlay`: a fresh context is initialized
from the source image (NewContext + DrawImage leave it equal to the source),
then the left and right panels are drawn, each only when its line list is
nonempty, each with its brightness-chosen color scheme. -/
def renderDualPanelOverlay (g : GG) (displayW displayH : ℤ) (imgW imgH : ℚ)
    (img : Canvas) (leftIsLight rightIsLight : Bool)
    (leftLines rightLines : List String) : Canvas :=
  let dims := dualPanelDims displayW displayH imgW imgH
  let leftColors := if leftIsLight then darkOnLight else lightOnDark
  let rightColors := if rightIsLight then darkOnLight else lightOnDark
  let c1 : Canvas := img
  let c2 : Canvas :=
    if leftLines.length > 0 then
      drawPanel g dims leftColors leftLines (leftRect g dims leftLines) c1
    else c1
  if rightLines.length > 0 then
    drawPanel g dims rightColors rightLines (rightRect g dims imgW rightLines) c2
  else c2

/-- The drawn footprint of a panel: its rectangle together with the
half-pixel overhang of the 1-pixel border stroke centered on its outline. -/
def footprint (r : Rect) (p q : ℚ) : Prop :=
  r.x - 1 / 2 ≤ p ∧ p ≤ r.x + r.w + 1 / 2 ∧
  r.y - 1 / 2 ≤ q ∧ q ≤ r.y + r.h + 1 / 2

lemma inRectB_footprint {r : Rect} {p q : ℚ} (h : inRectB r p q = true) :
    footprint r p q := by
  simp only [inRectB, Bool.and_eq_true, decide_eq_true_eq] at h
  obtain ⟨⟨⟨h1, h2⟩, h3⟩, h4⟩ := h
  exact ⟨by linarith, by linarith, by linarith, by linarith⟩

lemma inRoundedRectB_footprint {r : Rect} {rad p q : ℚ}
    (h : inRoundedRectB r rad p q = true) : footprint r p q := by
  rw [inRoundedRectB, Bool.and_eq_true] at h
  exact inRectB_footprint h.1

lemma strokeBandB_footprint {r : Rect} {p q : ℚ}
    (h : strokeBandB r 1 p q = true) : footprint r p q := by
  rw [strokeBandB, Bool.and_eq_true] at h
  have h1 := h.1
  simp only [inRectB, Bool.and_eq_true, decide_eq_true_eq] at h1
  obtain ⟨⟨⟨h2, h3⟩, h4⟩, h5⟩ := h1
  exact ⟨by linarith, by linarith, by linarith, by linarith⟩

/-- The Go running-maximum guard is the max operation. -/
lemma ite_gt_eq_max {α : Type} [LinearOrder α] (a b : α) :
    (if b > a then b else a) = max a b :=
  Overlay.ite_lt_eq_max a b

lemma foldl_maxLineWidth_init_le (g : GG) :
    ∀ (l : List String) (acc : ℚ),
      acc ≤ l.foldl (fun a s => if g.measure s > a then g.measure s else a) acc := by
  intro l
  induction l with
  | nil => intro acc; exact le_refl acc
  | cons s rest ih =>
      intro acc
      rw [List.foldl_cons]
      refine le_trans ?_ (ih _)
      rw [ite_gt_eq_max]
      exact le_max_left _ _

lemma measure_le_foldl (g : GG) :
    ∀ (l : List String) (acc : ℚ) (s : String), s ∈ l →
      g.measure s ≤ l.foldl (fun a t => if g.measure t > a then g.measure t else a) acc := by
  intro l
  induction l with
  | nil =>
      intro acc s hs
      exact absurd hs (List.not_mem_nil s)
  | cons t rest ih =>
      intro acc s hs
      rw [List.foldl_cons]
      rcases List.mem_cons.mp hs with heq | hmem
      · subst heq
        refine le_trans ?_ (foldl_maxLineWidth_init_le g rest _)
        rw [ite_gt_eq_max]
        exact le_max_right _ _
      · exact ih _ s hmem

/-- Every line of a panel measures at most the widest line. -/
lemma measure_le_maxLineWidth (g : GG) {s : String} {lines : List String}
    (hs : s ∈ lines) : g.measure s ≤ maxLineWidth g lines :=
  measure_le_foldl g lines 0 s hs

/-- If no drawn line glyph covers the point, the text loop leaves it alone. -/
lemma drawLines_eq_of_miss (g : GG) (col : Color) (lineHeight textX : ℚ) :
    ∀ (lines : List String) (textY : ℚ) (c : Canvas) (p q : ℚ),
      (∀ (i : ℕ) (hi : i < lines.length),
        g.glyph (lines.get ⟨i, hi⟩) textX (textY + (i : ℚ) * lineHeight) p q = false) →
      drawLines g col lineHeight textX lines textY c p q = c p q := by
  intro lines
  induction lines with
  | nil =>
      intro textY c p q _
      rfl
  | cons s rest ih =>
      intro textY c p q hmiss
      have hrest : ∀ (i : ℕ) (hi : i < rest.length),
          g.glyph (rest.get ⟨i, hi⟩) textX ((textY + lineHeight) + (i : ℚ) * lineHeight)
            p q = false := by
        intro i hi
        have h1 := hmiss (i + 1) (by simpa using Nat.succ_lt_succ hi)
        have harg : textY + ((i : ℕ) + 1 : ℚ) * lineHeight
            = (textY + lineHeight) + (i : ℚ) * lineHeight := by ring
        rw [show ((i + 1 : ℕ) : ℚ) = ((i : ℚ) + 1) by push_cast; ring] at h1
        rw [harg] at h1
        exact h1
      have h0 := hmiss 0 (Nat.succ_pos _)
      simp only [List.get, Nat.cast_zero, zero_mul, add_zero] at h0
      rw [drawLines, ih (textY + lineHeight) _ p q hrest]
      simp [h0]

/-- A panel whose footprint misses the point does not repaint it: the fill
and border stay within the footprint, and under the glyph-containment
property of the font each text line stays within the box. -/
lemma drawPanel_outside (g : GG) (dims : Overlay.ScaledDimensions)
    (colors : TextColorQ) (lines : List String) (r : Rect) (c : Canvas) (p q : ℚ)
    (hw : r.w = boxWidth g dims lines)
    (hh : r.h = boxHeight dims lines)
    (hpad : 0 ≤ dims.padding) (hls : 0 ≤ dims.lineSpacing) (hfs : 0 ≤ dims.fontSize)
    (hglyph : ∀ (s : String) (xg yb pp qq : ℚ), g.glyph s xg yb pp qq = true →
      xg ≤ pp ∧ pp ≤ xg + g.measure s ∧ yb - dims.fontSize ≤ qq ∧ qq ≤ yb)
    (hout : ¬ footprint r p q) :
    drawPanel g dims colors lines r c p q = c p q := by
  have hfill : inRoundedRectB r dims.cornerRadius p q = false := by
    cases hb : inRoundedRectB r dims.cornerRadius p q with
    | false => rfl
    | true => exact absurd (inRoundedRectB_footprint hb) hout
  have hstroke : strokeBandB r 1 p q = false := by
    cases hb : strokeBandB r 1 p q with
    | false => rfl
    | true => exact absurd (strokeBandB_footprint hb) hout
  have hmiss : ∀ (i : ℕ) (hi : i < lines.length),
      g.glyph (lines.get ⟨i, hi⟩) (r.x + dims.padding)
        ((r.y + dims.padding + dims.fontSize) + (i : ℚ) * (dims.fontSize + dims.lineSpacing))
        p q = false := by
    intro i hi
    cases hb : g.glyph (lines.get ⟨i, hi⟩) (r.x + dims.padding)
        ((r.y + dims.padding + dims.fontSize) + (i : ℚ) * (dims.fontSize + dims.lineSpacing))
        p q with
    | false => rfl
    | true =>
        obtain ⟨hb1, hb2, hb3, hb4⟩ := hglyph _ _ _ _ _ hb
        have hmw : g.measure (lines.get ⟨i, hi⟩) ≤ maxLineWidth g lines :=
          measure_le_maxLineWidth g (lines.get_mem i hi)
        have hLH : 0 ≤ dims.fontSize + dims.lineSpacing := by linarith
        have hiLH : 0 ≤ (i : ℚ) * (dims.fontSize + dims.lineSpacing) :=
          mul_nonneg (by positivity) hLH
        have hicast : (i : ℚ) + 1 ≤ (lines.length : ℚ) := by
          exact_mod_cast Nat.succ_le_of_lt hi
        have hup : (i : ℚ) * (dims.fontSize + dims.lineSpacing)
            + (dims.fontSize + dims.lineSpacing)
            ≤ (lines.length : ℚ) * (dims.fontSize + dims.lineSpacing) := by
          nlinarith
        refine absurd ?_ hout
        have hww : maxLineWidth g lines = r.w - dims.padding * 2 := by
          rw [hw, boxWidth]; ring
        have hhh : (dims.fontSize + dims.lineSpacing) * (lines.length : ℚ)
            = r.h - dims.padding * 2 + dims.lineSpacing := by
          rw [hh, boxHeight]; ring
        exact ⟨by linarith, by linarith, by linarith, by linarith⟩
  rw [drawPanel]
  rw [drawLines_eq_of_miss g colors.text (dims.fontSize + dims.lineSpacing)
    (r.x + dims.padding) lines (r.y + dims.padding + dims.fontSize) _ p q hmiss]
  simp [hstroke, hfill]

/-- C8: the dual-panel renderer composites over a fresh canvas initialized
from the source image and, provided the font renders each text line within
its measured width and font-size ascent (the glyph-containment hypothesis on
the external font), every point outside the two drawn panel rectangles
(each including the half-pixel overhang of its 1-pixel border) keeps exactly
the source pixel; a panel whose line list is empty is skipped entirely, so
with one empty panel only the other panel footprint can differ from the
source. The source canvas itself is never written: the embedding builds the
result purely from reads of it. -/
theorem renderDualPanelOverlay_frame (g : GG) (displayW displayH : ℤ)
    (imgW imgH : ℚ) (img : Canvas) (leftIsLight rightIsLight : Bool)
    (leftLines rightLines : List String)
    (hglyph : ∀ (s : String) (xg yb pp qq : ℚ), g.glyph s xg yb pp qq = true →
      xg ≤ pp ∧ pp ≤ xg + g.measure s ∧
      yb - (dualPanelDims displayW displayH imgW imgH).fontSize ≤ qq ∧ qq ≤ yb) :
    (∀ p q : ℚ,
      ¬ footprint (leftRect g (dualPanelDims displayW displayH imgW imgH) leftLines) p q →
      ¬ footprint (rightRect g (dualPanelDims displayW displayH imgW imgH) imgW rightLines) p q →
      renderDualPanelOverlay g displayW displayH imgW imgH img leftIsLight rightIsLight
        leftLines rightLines p q = img p q) ∧
    (leftLines = [] → ∀ p q : ℚ,
      ¬ footprint (rightRect g (dualPanelDims displayW displayH imgW imgH) imgW rightLines) p q →
      renderDualPanelOverlay g displayW displayH imgW imgH img leftIsLight rightIsLight
        leftLines rightLines p q = img p q) ∧
    (rightLines = [] → ∀ p q : ℚ,
      ¬ footprint (leftRect g (dualPanelDims displayW displayH imgW imgH) leftLines) p q →
      renderDualPanelOverlay g displayW displayH imgW imgH img leftIsLight rightIsLight
        leftLines rightLines p q = img p q) := by
  have hnn := Overlay.calcDims_metrics_nonneg displayW displayH
  have hpad : 0 ≤ (dualPanelDims displayW displayH imgW imgH).padding := hnn.1
  have hls : 0 ≤ (dualPanelDims displayW displayH imgW imgH).lineSpacing := hnn.2.1
  have hfs : 0 ≤ (dualPanelDims displayW displayH imgW imgH).fontSize := hnn.2.2
  have hL : ∀ (colors : TextColorQ) (c : Canvas) (p q : ℚ),
      ¬ footprint (leftRect g (dualPanelDims displayW displayH imgW imgH) leftLines) p q →
      drawPanel g (dualPanelDims displayW displayH imgW imgH) colors leftLines
        (leftRect g (dualPanelDims displayW displayH imgW imgH) leftLines) c p q = c p q :=
    fun colors c p q hout =>
      drawPanel_outside g _ colors leftLines _ c p q rfl rfl hpad hls hfs hglyph hout
  have hR : ∀ (colors : TextColorQ) (c : Canvas) (p q : ℚ),
      ¬ footprint (rightRect g (dualPanelDims displayW displayH imgW imgH) imgW rightLines) p q →
      drawPanel g (dualPanelDims displayW displayH imgW imgH) colors rightLines
        (rightRect g (dualPanelDims displayW displayH imgW imgH) imgW rightLines) c p q
        = c p q :=
    fun colors c p q hout =>
      drawPanel_outside g _ colors rightLines _ c p q rfl rfl hpad hls hfs hglyph hout
  refine ⟨?_, ?_, ?_⟩
  · intro p q hl hr
    simp only [renderDualPanelOverlay]
    by_cases hr2 : rightLines.length > 0
    · rw [if_pos hr2]
      by_cases hl2 : leftLines.length > 0
      · rw [if_pos hl2]
        exact (hR _ _ p q hr).trans (hL _ _ p q hl)
      · rw [if_neg hl2]
        exact hR _ _ p q hr
    · rw [if_neg hr2]
      by_cases hl2 : leftLines.length > 0
      · rw [if_pos hl2]
        exact hL _ _ p q hl
      · rw [if_neg hl2]
  · intro hle p q hr
    subst hle
    simp only [renderDualPanelOverlay]
    rw [if_neg (show ¬(([] : List String).length > 0) by simp)]
    by_cases hr2 : rightLines.length > 0
    · rw [if_pos hr2]
      exact hR _ _ p q hr
    · rw [if_neg hr2]
  · intro hre p q hl
    subst hre
    simp only [renderDualPanelOverlay]
    rw [if_neg (show ¬(([] : List String).length > 0) by simp)]
    by_cases hl2 : leftLines.length > 0
    · rw [if_pos hl2]
      exact hL _ _ p q hl
    · rw [if_neg hl2]

/-- A concrete drawing library for the witness: identity compositors, zero
measures, and a font whose glyphs cover nothing. -/
def ggWitness : GG :=
  ⟨fun c _ => c, fun c _ => c, fun c _ => c, fun _ => 0, fun _ _ _ _ _ => false⟩

/-- C8 witness: at 1920x1080 with one line per panel, the point (0, 0) lies
outside both panel footprints and keeps the source pixel. -/
theorem renderDualPanelOverlay_frame_witness :
    renderDualPanelOverlay ggWitness 1920 1080 1920 1080
      (fun _ _ => ((0 : ℚ), (0 : ℚ), (0 : ℚ), (0 : ℚ))) false false
      ["Running: 40/45"] ["HOST1"] 0 0 = ((0 : ℚ), (0 : ℚ), (0 : ℚ), (0 : ℚ)) := by
  have hglyph0 : ∀ (s : String) (xg yb pp qq : ℚ),
      ggWitness.glyph s xg yb pp qq = true →
      xg ≤ pp ∧ pp ≤ xg + ggWitness.measure s ∧
      yb - (dualPanelDims 1920 1080 1920 1080).fontSize ≤ qq ∧ qq ≤ yb := by
    intro s xg yb pp qq h
    exact absurd h (by simp [ggWitness])
  have hnl : ¬ footprint
      (leftRect ggWitness (dualPanelDims 1920 1080 1920 1080) ["Running: 40/45"]) 0 0 := by
    intro hfp
    have h3 := hfp.2.2.1
    norm_num [footprint, leftRect, dualPanelDims,
      Overlay.calculateScaledDimensionsForResolution, Overlay.BaseWidth,
      Overlay.BaseHeight, Overlay.BaseFontSize, Overlay.BasePadding,
      Overlay.BaseLineSpacing, Overlay.BaseCornerRadius, Overlay.BaseMarginRight,
      Overlay.BaseMarginLeft, Overlay.BaseMarginTop, Overlay.MinScaleFactor,
      Overlay.MaxScaleFactor, Overlay.MinFontSize] at h3
  have hnr : ¬ footprint
      (rightRect ggWitness (dualPanelDims 1920 1080 1920 1080) 1920 ["HOST1"]) 0 0 := by
    intro hfp
    have h3 := hfp.2.2.1
    norm_num [footprint, rightRect, dualPanelDims,
      Overlay.calculateScaledDimensionsForResolution, Overlay.BaseWidth,
      Overlay.BaseHeight, Overlay.BaseFontSize, Overlay.BasePadding,
      Overlay.BaseLineSpacing, Overlay.BaseCornerRadius, Overlay.BaseMarginRight,
      Overlay.BaseMarginLeft, Overlay.BaseMarginTop, Overlay.MinScaleFactor,
      Overlay.MaxScaleFactor, Overlay.MinFontSize] at h3
  exact (renderDualPanelOverlay_frame ggWitness 1920 1080 1920 1080
    (fun _ _ => ((0 : ℚ), (0 : ℚ), (0 : ℚ), (0 : ℚ))) false false
    ["Running: 40/45"] ["HOST1"] hglyph0).1 0 0 hnl hnr

end Render
